import Mathlib

/-!
Shallow embedding of the evie-lang interpreter core (prajithkb/evie-lang),
used to check the claims of spec.md against the source under src/.

Conventions of the embedding:
* Rust `f64` numbers are modelled as `Rat`; `f64::EPSILON` is the rational
  2 ^ (-52), matching `std::f64::EPSILON` used by `num_equals` in
  src/evie_vm/src/vm.rs.
* A `GCObjectOf<T>` handle (a stable heap pointer) is modelled as a `Nat`
  identifier; pointer equality of handles is equality of the identifiers.
* `Value` (src/evie_memory/src/objects.rs, the `non_nan_boxed` enum that
  src/evie_vm/src/vm.rs pattern-matches on) is a sum of Nil / Boolean /
  Number / Object.  The `Object` payloads the VM matches on
  (`Object::String`, `Object::Function`, `Object::Closure`, plus the class
  family declared in objects.rs) are flattened into `Value` constructors
  suffixed with `O`; strings carry their handle and their byte content so
  that both pointer comparison and content comparison are expressible.
* Rust `Result`-returning VM helpers become `Except String`; a Rust
  `assert!`/panic is kept distinct from `ErrorKind::RuntimeError` wherever a
  claim depends on the difference.
-/

namespace Evie

/-- UserDefinedFunction from src/evie_memory/src/objects.rs: optional name,
chunk handle, arity, upvalue count.  The chunk handle is modelled as an id. -/
structure UserDefinedFunction where
  name : Option String
  chunkId : Nat
  arity : Nat
  upvalue_count : Nat

/-- NativeFunction from src/evie_memory/src/objects.rs: name, arity and a
host function pointer (modelled as an opaque id, the VM under src never
invokes it). -/
structure NativeFunction where
  name : String
  arity : Nat
  fnId : Nat

/-- Function from src/evie_memory/src/objects.rs. -/
inductive Function where
  | UserDefined (u : UserDefinedFunction)
  | Native (n : NativeFunction)

/-- Closure from src/evie_memory/src/objects.rs: a function plus the list of
captured upvalue handles (ids into the upvalue heap). -/
structure Closure where
  function : Function
  upvalues : List Nat

/-- Runtime value as used by src/evie_vm/src/vm.rs (the non-NaN-boxed
representation): Nil, Boolean, Number, or a heap object.  Object variants are
flattened into the constructors suffixed `O`; a string object carries its
handle (pointer identity) and its content. -/
inductive Value where
  | Nil
  | Boolean (b : Bool)
  | Number (n : Rat)
  | StringO (handle : Nat) (content : String)
  | FunctionO (f : Function)
  | ClosureO (c : Closure)
  | ClassO (name : String) (methods : List (String × Closure))
  | InstanceO (klassName : String) (methods : List (String × Closure))
      (fields : List (String × Value))
  | BoundMethodO (klassName : String) (recvFields : List (String × Value))
      (m : Closure)

/-- The f64 machine epsilon 2^(-52), the EPSILON used by num_equals in
src/evie_vm/src/vm.rs (std::f64::EPSILON). -/
def EPSILON : Rat := 1 / 2 ^ 52

/-- num_equals from src/evie_vm/src/vm.rs lines 1028-1031:
(l - r).abs() < EPSILON. -/
def num_equals (l r : Rat) : Bool :=
  decide (|l - r| < EPSILON)

/-- value_equals from src/evie_vm/src/vm.rs lines 1032-1043.  The source
returns Result of bool but every branch is Ok, so it is modelled as Bool.
Strings compare by pointer equality OR content equality:
std::ptr::eq(l.as_ptr(), r.as_ptr()) || l.as_ref() == r.as_ref().
Every mixed-variant pair falls through to false. -/
def value_equals : Value → Value → Bool
  | .Boolean l, .Boolean r => l == r
  | .Nil, .Nil => true
  | .Number l, .Number r => num_equals l r
  | .StringO lh lc, .StringO rh rc => (lh == rh) || (lc == rc)
  | _, _ => false

/-- is_falsey from src/evie_vm/src/vm.rs lines 1045-1051. -/
def is_falsey : Value → Bool
  | .Boolean b => !b
  | .Nil => true
  | _ => false

/-- The Opcode::Not arm of the dispatch loop (vm.rs lines 346-349): pop the
top value, push Boolean(is_falsey(v)).  Popping an empty stack is a panic,
modelled as none. -/
def notArm : List Value → Option (List Value)
  | v :: rest => some (Value.Boolean (is_falsey v) :: rest)
  | [] => none

/-- The Opcode::JumpIfFalse arm (vm.rs lines 410-415): after the two operand
bytes are read, the ip advances by the offset iff the peeked top of stack is
falsey.  The stack is only peeked, never popped. -/
def jumpIfFalseArm (ip offset : Nat) (top : Value) : Nat :=
  if is_falsey top then ip + offset else ip

/-- The Opcode::JumpIfTrue arm (vm.rs lines 420-425): the ip advances by the
offset iff the peeked top of stack is not falsey. -/
def jumpIfTrueArm (ip offset : Nat) (top : Value) : Nat :=
  if !is_falsey top then ip + offset else ip

/-- Opcode from src/evie_instructions/src/opcodes.rs lines 10-89, a
field-less repr(u8) enum with 38 variants in declaration order. -/
inductive Opcode where
  | Constant
  | Return
  | Add
  | Subtract
  | Multiply
  | Divide
  | Negate
  | Nil
  | True
  | False
  | Not
  | EqualEqual
  | BangEqual
  | Greater
  | GreaterEqual
  | Less
  | LessEqual
  | Print
  | Pop
  | DefineGlobal
  | GetGlobal
  | SetGlobal
  | GetLocal
  | SetLocal
  | JumpIfFalse
  | JumpIfTrue
  | Jump
  | Loop
  | Call
  | Closure
  | GetUpvalue
  | SetUpvalue
  | CloseUpvalue
  | Class
  | SetProperty
  | GetProperty
  | Method
  | Invoke
deriving DecidableEq

/-- impl From of Opcode for u8 (opcodes.rs lines 97-101): the repr(u8)
discriminant, i.e. the declaration position starting at 0. -/
def u8_from_opcode : Opcode → Nat
  | .Constant => 0
  | .Return => 1
  | .Add => 2
  | .Subtract => 3
  | .Multiply => 4
  | .Divide => 5
  | .Negate => 6
  | .Nil => 7
  | .True => 8
  | .False => 9
  | .Not => 10
  | .EqualEqual => 11
  | .BangEqual => 12
  | .Greater => 13
  | .GreaterEqual => 14
  | .Less => 15
  | .LessEqual => 16
  | .Print => 17
  | .Pop => 18
  | .DefineGlobal => 19
  | .GetGlobal => 20
  | .SetGlobal => 21
  | .GetLocal => 22
  | .SetLocal => 23
  | .JumpIfFalse => 24
  | .JumpIfTrue => 25
  | .Jump => 26
  | .Loop => 27
  | .Call => 28
  | .Closure => 29
  | .GetUpvalue => 30
  | .SetUpvalue => 31
  | .CloseUpvalue => 32
  | .Class => 33
  | .SetProperty => 34
  | .GetProperty => 35
  | .Method => 36
  | .Invoke => 37

/-- impl From of u8 for Opcode (opcodes.rs lines 91-95): a transmute, defined
exactly on the discriminants 0-37 (any other byte is undefined behaviour in
the source, modelled as none). -/
def opcode_from_u8 : Nat → Option Opcode
  | 0 => some .Constant
  | 1 => some .Return
  | 2 => some .Add
  | 3 => some .Subtract
  | 4 => some .Multiply
  | 5 => some .Divide
  | 6 => some .Negate
  | 7 => some .Nil
  | 8 => some .True
  | 9 => some .False
  | 10 => some .Not
  | 11 => some .EqualEqual
  | 12 => some .BangEqual
  | 13 => some .Greater
  | 14 => some .GreaterEqual
  | 15 => some .Less
  | 16 => some .LessEqual
  | 17 => some .Print
  | 18 => some .Pop
  | 19 => some .DefineGlobal
  | 20 => some .GetGlobal
  | 21 => some .SetGlobal
  | 22 => some .GetLocal
  | 23 => some .SetLocal
  | 24 => some .JumpIfFalse
  | 25 => some .JumpIfTrue
  | 26 => some .Jump
  | 27 => some .Loop
  | 28 => some .Call
  | 29 => some .Closure
  | 30 => some .GetUpvalue
  | 31 => some .SetUpvalue
  | 32 => some .CloseUpvalue
  | 33 => some .Class
  | 34 => some .SetProperty
  | 35 => some .GetProperty
  | 36 => some .Method
  | 37 => some .Invoke
  | _ => none

/-- The 38 declared opcodes in declaration order. -/
def opcode_list : List Opcode :=
  [.Constant, .Return, .Add, .Subtract, .Multiply, .Divide, .Negate, .Nil,
   .True, .False, .Not, .EqualEqual, .BangEqual, .Greater, .GreaterEqual,
   .Less, .LessEqual, .Print, .Pop, .DefineGlobal, .GetGlobal, .SetGlobal,
   .GetLocal, .SetLocal, .JumpIfFalse, .JumpIfTrue, .Jump, .Loop, .Call,
   .Closure, .GetUpvalue, .SetUpvalue, .CloseUpvalue, .Class, .SetProperty,
   .GetProperty, .Method, .Invoke]

/-- STACK_SIZE from src/evie_vm/src/vm.rs line 22. -/
def STACK_SIZE : Nat := 1024

/-- Outcome of a VM stack primitive.  The source push returns Result with
every branch Ok: its failure mode is the Rust assert! macro, a panic that
aborts, which is a different channel from ErrorKind::RuntimeError.  Both
channels are represented so that a claim about which one is used is
expressible. -/
inductive PushOutcome where
  | ok (stack : List Value)
  | runtimeError (msg : String)
  | panicked (msg : String)

/-- push from src/evie_vm/src/vm.rs lines 988-994: assert!(stack_top <
STACK_SIZE) then write and increment.  The stack is the live prefix
(bottom first), so stack_top is the list length.  A full stack trips the
assert, i.e. panics; no ErrorKind::RuntimeError is ever produced. -/
def push (stack : List Value) (v : Value) : PushOutcome :=
  if stack.length < STACK_SIZE then .ok (stack ++ [v])
  else .panicked "assertion failed: self.stack_top < STACK_SIZE"

/-- CallFrame from src/evie_vm/src/vm.rs lines 24-36; CallFrame::new sets
ip to 0. -/
structure CallFrame where
  fn_start_stack_index : Nat
  ip : Nat

/-- The VM state needed by the CALL path: the value stack (top of stack at
the head of the list, so stack_top is the length and peek_at d is element d)
and the call-frame stack. -/
structure CallState where
  stack : List Value
  call_frames : List CallFrame

/-- The runtime error message produced by check_arguments in
src/evie_vm/src/vm.rs lines 850-853. -/
def expected_arguments_message (arity arg_count : Nat) : String :=
  "Expected " ++ toString arity ++ " arguments but got " ++ toString arg_count

/-- check_arguments from src/evie_vm/src/vm.rs lines 844-866.  For a
user-defined function an arity mismatch is a runtime error; for a native
function the whole check is commented out in the source, so any argument
count is accepted. -/
def check_arguments (f : Function) (arg_count : Nat) : Except String Bool :=
  match f with
  | .UserDefined u =>
    if u.arity ≠ arg_count then
      .error (expected_arguments_message u.arity arg_count)
    else .ok true
  | .Native _ => .ok true

/-- call_function from src/evie_vm/src/vm.rs lines 813-826.  After
check_arguments, a native function does nothing at all (the
call_native_function call is commented out in the source: no invocation, no
callee-slot replacement, no stack-top adjustment, no frame); any other
function pushes a CallFrame with the given start index and ip 0. -/
def call_function (s : CallState) (f : Function)
    (arg_count fn_start_stack_index : Nat) : Except String CallState :=
  match check_arguments f arg_count with
  | .error e => .error e
  | .ok _ =>
    match f with
    | .Native _ => .ok s
    | .UserDefined _ =>
      .ok { s with call_frames :=
        s.call_frames ++ [CallFrame.mk fn_start_stack_index 0] }

/-- call from src/evie_vm/src/vm.rs lines 757-811: peek the callee at
distance arg_count from the top, compute start_index = stack_top - 1 -
arg_count, and dispatch on the callee variant.  The Class and Receiver arms
are commented out in the source, so only Closure and Function values are
callable; everything else is the runtime error at lines 805-810 (its message
is abbreviated here, the source also formats the offending value and stack
index into it). -/
def call (s : CallState) (arg_count : Nat) : Except String CallState :=
  match s.stack[arg_count]? with
  | none => .error "panic: peek_at past the stack bottom"
  | some value =>
    let start_index := s.stack.length - 1 - arg_count
    match value with
    | .ClosureO c => call_function s c.function arg_count start_index
    | .FunctionO f => call_function s f arg_count start_index
    | _ => .error "can only call a function/closure, constructor or a class method"

/-- Location from src/evie_memory/src/objects.rs lines 536-542: a live
upvalue points at a stack slot; a closed one owns a heap cell (the
GCObjectOf Value cell is modelled by the value it carries). -/
inductive Location where
  | Stack (index : Nat)
  | Heap (v : Value)

/-- Upvalue from src/evie_memory/src/objects.rs lines 530-533. -/
structure Upvalue where
  location : Location

/-- The VM state needed by close_upvalues: the value stack indexed by slot
(head is slot 0), the heap of upvalue objects addressed by handle id, and
the open-upvalue LinkedList (front of the Rust list at the head; ids into
the heap).  capture_upvalue pushes to the back. -/
structure UpvState where
  stack : List Value
  upvalue_heap : List Upvalue
  up_values : List Nat

/-- The take_while predicate of close_upvalues (vm.rs lines 717-720): the
upvalue referenced by the id is located on the stack at slot >= last_index. -/
def is_open_at_least (s : UpvState) (last_index : Nat) (id : Nat) : Bool :=
  match (s.upvalue_heap.getD id (Upvalue.mk (Location.Heap Value.Nil))).location with
  | .Stack i => decide (last_index ≤ i)
  | .Heap _ => false

/-- close_upvalues from src/evie_vm/src/vm.rs lines 712-731.  It walks the
open-upvalue list from the back (iter().rev()), takes while the location is
Stack(i) with i >= last_index, sets each such upvalue's location to
Heap(Value::Nil) — the copy of the stack value (let value =
self.get_stack(index)) is commented out in the source — and then removes
the walked suffix from the list via split_off(len - count). -/
def close_upvalues (s : UpvState) (last_index : Nat) : UpvState :=
  let affected := s.up_values.reverse.takeWhile (is_open_at_least s last_index)
  let heap2 := (List.range s.upvalue_heap.length).map (fun id =>
    if id ∈ affected then Upvalue.mk (Location.Heap Value.Nil)
    else s.upvalue_heap.getD id (Upvalue.mk (Location.Heap Value.Nil)))
  { stack := s.stack
    upvalue_heap := heap2
    up_values := s.up_values.take (s.up_values.length - affected.length) }

/-- First-match association lookup, as performed by the Cache (Vec scan) in
src/evie_memory/src/cache.rs used for instance fields and class methods. -/
def assoc_get {A : Type} : List (String × A) → String → Option A
  | [], _ => none
  | (k, a) :: rest, key => if k = key then some a else assoc_get rest key

/-- The Opcode::GetProperty dispatch arm exactly as executed by run in
src/evie_vm/src/vm.rs lines 514-524: the entire body is commented out in the
source, so the arm reads no operand byte and leaves the stack unchanged. -/
def get_property_arm (stack : List Value) : Except String (List Value) :=
  .ok stack

/-- Modelled from the spec: the GET_PROPERTY semantics of spec section 4.G,
which is missing from the executable source (the body of the GetProperty arm
and the get_property/bind_method helpers of vm.rs are commented out; only
the opcode declaration, the BoundMethod struct of objects.rs and the class
tests remain).  Receiver must be an instance; if the instance's field map
has the name, push that value; otherwise, if the class's method map has the
name, pop the instance and push a freshly allocated BoundMethod pairing the
instance with the method's closure; otherwise a runtime error.  A
non-instance receiver is a runtime error. -/
def get_property_spec (name : String) : List Value → Except String (List Value)
  | .InstanceO kn ms fs :: rest =>
    match assoc_get fs name with
    | some v => .ok (v :: .InstanceO kn ms fs :: rest)
    | none =>
      match assoc_get ms name with
      | some m => .ok (.BoundMethodO kn fs m :: rest)
      | none => .error ("Undefined property " ++ name)
  | _ :: _ => .error "Only instances have properties"
  | [] => .error "panic: peek_at past the stack bottom"

/-- Chunk from src/evie_memory/src/chunk.rs: byte code, constant pool and
per-instruction line numbers (the Memory wrapper is a plain Vec). -/
structure Chunk where
  code : List Nat
  constants : List Value
  lines : List Nat

/-- add_constant from src/evie_memory/src/chunk.rs lines 28-33: append the
value and return the index of the appended entry cast to ByteUnit = u8
(hence the mod 256). -/
def add_constant (c : Chunk) (v : Value) : Chunk × Nat :=
  let constants2 := c.constants ++ [v]
  ({ c with constants := constants2 }, (constants2.length - 1) % 256)

/-- Modelled from the spec: the compiler-side constant guard.  The
evie_compiler crate is referenced by src/evie_vm/src/vm.rs but its sources
are not under src/, so the rule of spec section 3 (Invariants) that the
compiler must error before emitting a 257th constant into a chunk is
modelled here from the spec text; add_constant itself is the chunk.rs
function. -/
def make_constant (c : Chunk) (v : Value) : Except String (Chunk × Nat) :=
  if 256 ≤ c.constants.length then .error "Too many constants in one chunk"
  else .ok (add_constant c v)

/-- ITEM_COUNT from src/evie_vm/src/runtime_memory.rs line 12: the cache
drain threshold of the globals store. -/
def ITEM_COUNT : Nat := 1024

/-- Cache::insert from src/evie_memory/src/cache.rs lines 26-33: update the
first entry with this key in place, else push the pair at the back.  Keys
are GCObjectOf handles, modelled as Nat ids. -/
def cache_insert {V : Type} : List (Nat × V) → Nat → V → List (Nat × V)
  | [], k, v => [(k, v)]
  | (k0, v0) :: rest, k, v =>
    if k0 = k then (k, v) :: rest else (k0, v0) :: cache_insert rest k v

/-- Cache::get from src/evie_memory/src/cache.rs lines 35-38: first match
wins. -/
def cache_get {V : Type} : List (Nat × V) → Nat → Option V
  | [], _ => none
  | (k0, v0) :: rest, k => if k0 = k then some v0 else cache_get rest k

/-- One FxHashMap::insert of the globals store, modelled as a functional
update of a partial map. -/
def map_insert {V : Type} (m : Nat → Option V) (k : Nat) (v : V) :
    Nat → Option V :=
  fun k2 => if k2 = k then some v else m k2

/-- The for_each loop of Objects::insert (runtime_memory.rs lines 39-41):
insert every drained item into the hash map, in order. -/
def map_insert_all {V : Type} (m : Nat → Option V) :
    List (Nat × V) → (Nat → Option V)
  | [] => m
  | (k, v) :: rest => map_insert_all (map_insert m k v) rest

/-- Objects from src/evie_vm/src/runtime_memory.rs lines 16-22: an
FxHashMap (modelled as a partial map on key ids) behind a Cache tier. -/
structure Objects (V : Type) where
  objects : Nat → Option V
  cached_values : List (Nat × V)

/-- The empty globals store (Objects::new). -/
def Objects.empty {V : Type} : Objects V :=
  { objects := fun _ => none, cached_values := [] }

/-- Objects::insert from src/evie_vm/src/runtime_memory.rs lines 34-43:
insert into the cache tier; when the cache size reaches ITEM_COUNT, drain
the first ITEM_COUNT cache entries into the hash map (drain_first is
cache.rs lines 48-50, a prefix drain). -/
def Objects.insert {V : Type} (s : Objects V) (k : Nat) (v : V) : Objects V :=
  if ITEM_COUNT ≤ (cache_insert s.cached_values k v).length then
    { objects := map_insert_all s.objects ((cache_insert s.cached_values k v).take ITEM_COUNT),
      cached_values := (cache_insert s.cached_values k v).drop ITEM_COUNT }
  else
    { s with cached_values := cache_insert s.cached_values k v }

/-- Objects::get from src/evie_vm/src/runtime_memory.rs lines 45-56: return
the cached value if present; else fetch from the map, add it to the cache
and return it; else None.  The returned pair is (result, updated store). -/
def Objects.get {V : Type} (s : Objects V) (k : Nat) : Option V × Objects V :=
  match cache_get s.cached_values k with
  | some v => (some v, s)
  | none =>
    match s.objects k with
    | some v => (some v, { s with cached_values := cache_insert s.cached_values k v })
    | none => (none, s)

/-- An operation on the globals store: a DEFINE_GLOBAL / SET_GLOBAL style
insert, or a GET_GLOBAL style get (which may re-cache internally). -/
inductive GlobalsOp (V : Type) where
  | insertOp (k : Nat) (v : V)
  | getOp (k : Nat)

/-- Apply one operation to the store. -/
def apply_op {V : Type} (s : Objects V) : GlobalsOp V → Objects V
  | .insertOp k v => s.insert k v
  | .getOp k => (s.get k).2

/-- Run a sequence of operations from a starting store. -/
def run_ops {V : Type} (s : Objects V) : List (GlobalsOp V) → Objects V
  | [] => s
  | op :: rest => run_ops (apply_op s op) rest

/-- The value of the last insert for a key in an operation sequence, if
any: the reference model of the store. -/
def last_insert {V : Type} (ops : List (GlobalsOp V)) (k : Nat) : Option V :=
  ops.foldl (fun acc op =>
    match op with
    | .insertOp k2 v => if k2 = k then some v else acc
    | .getOp _ => acc) none

/-- Left-biased choice of two optional lookup results. -/
def or_lookup {V : Type} (a b : Option V) : Option V :=
  match a with
  | some v => some v
  | none => b

/-- The combined lookup of the two tiers: the cache shadows the map. -/
def combined {V : Type} (s : Objects V) (k : Nat) : Option V :=
  or_lookup (cache_get s.cached_values k) (s.objects k)

/-- Key list of a cache tier. -/
def cache_keys {V : Type} (l : List (Nat × V)) : List Nat :=
  l.map Prod.fst

/-- The store invariant: the cache tier holds no duplicate keys. -/
def CacheNodup {V : Type} (s : Objects V) : Prop :=
  (cache_keys s.cached_values).Nodup

/-- Example VM state for the GET_PROPERTY claim: the stack top is an
instance of a methodless class Pair with field first = 1 (the repo's own
vm_class_fields test scenario). -/
def pair_instance_stack : List Value :=
  [Value.InstanceO "Pair" [] [("first", Value.Number 1)]]

/-- Example state for the close_upvalues claim: stack slot 0 holds 42 and a
single open upvalue (heap id 0) points at Stack(0). -/
def one_open_upvalue : UpvState :=
  { stack := [Value.Number 42]
    upvalue_heap := [Upvalue.mk (Location.Stack 0)]
    up_values := [0] }

/-- A native function of arity 0 (the required clock built-in from
src/evie_native/src/lib.rs, registered with arity 0). -/
def clock_native : Function :=
  Function.Native (NativeFunction.mk "clock" 0 0)

/-- Example CALL state: the clock native as callee under two arguments. -/
def native_call_state : CallState :=
  { stack := [Value.Number 2, Value.Number 3, Value.FunctionO clock_native]
    call_frames := [] }

/-- A user-defined closure named c with arity 0 (the repo's own
vm_call_error_stack_trace scenario calls it with two arguments). -/
def closure_c : Closure :=
  Closure.mk (Function.UserDefined (UserDefinedFunction.mk (some "c") 0 0 0)) []

/-- Example CALL state: closure c under the two string arguments. -/
def closure_call_state : CallState :=
  { stack := [Value.StringO 7 "x", Value.StringO 8 "y", Value.ClosureO closure_c]
    call_frames := [] }

/-- A user-defined closure named f with arity 1, for the witness of the
amended CALL claim. -/
def closure_f : Closure :=
  Closure.mk (Function.UserDefined (UserDefinedFunction.mk (some "f") 0 1 0)) []

/-- Example CALL state: closure f under one argument. -/
def closure_f_state : CallState :=
  { stack := [Value.Number 5, Value.ClosureO closure_f]
    call_frames := [] }

/-- The empty chunk. -/
def chunk0 : Chunk := { code := [], constants := [], lines := [] }

/-- A chunk whose constant pool already holds 256 entries. -/
def chunk256 : Chunk :=
  { code := [], constants := List.replicate 256 Value.Nil, lines := [] }

end Evie

namespace Evie

theorem opcode_from_u8_u8_from (op : Opcode) :
    opcode_from_u8 (u8_from_opcode op) = some op := by
  cases op <;> rfl

/-- Claim C9: the opcode byte encoding round-trips (from u8 after into u8
yields the same opcode), is injective over the 38 declared opcodes, and maps
Constant to 0 and Invoke to 37. -/
theorem opcode_roundtrip :
    (∀ op : Opcode, opcode_from_u8 (u8_from_opcode op) = some op) ∧
    (∀ a b : Opcode, u8_from_opcode a = u8_from_opcode b → a = b) ∧
    u8_from_opcode .Constant = 0 ∧
    u8_from_opcode .Invoke = 37 ∧
    opcode_list.length = 38 ∧
    (∀ op : Opcode, op ∈ opcode_list) := by
  refine ⟨opcode_from_u8_u8_from, ?_, rfl, rfl, rfl, ?_⟩
  · intro a b h
    have ha := opcode_from_u8_u8_from a
    rw [h, opcode_from_u8_u8_from b] at ha
    exact (Option.some.injEq _ _ ▸ ha).symm
  · intro op
    cases op <;> simp [opcode_list]

/-- Claim C8: the truthiness used by NOT and by the conditional jumps
classifies exactly Nil and Boolean false as falsey; numbers (including 0),
strings (including the empty string) and all other objects are truthy; NOT
pushes Boolean(is_falsey v) and the conditional jumps peek the top of the
stack and add the offset according to the same classification. -/
theorem truthiness_classification (v : Value) :
    (is_falsey v = true ↔ (v = Value.Nil ∨ v = Value.Boolean false)) ∧
    (∀ rest, notArm (v :: rest) = some (Value.Boolean (is_falsey v) :: rest)) ∧
    (∀ ip offset, jumpIfFalseArm ip offset v =
      if is_falsey v then ip + offset else ip) ∧
    (∀ ip offset, jumpIfTrueArm ip offset v =
      if is_falsey v then ip else ip + offset) := by
  refine ⟨?_, fun rest => rfl, fun ip offset => rfl, fun ip offset => ?_⟩
  · cases v with
    | Boolean b => cases b <;> simp [is_falsey]
    | _ => simp [is_falsey]
  · by_cases h : is_falsey v = true <;> simp [jumpIfTrueArm, h]

/-- Claim C3, counterexample: two string values with different handles
(pointers) but equal contents compare equal under value_equals, refuting the
claim that strings compare equal iff they are the same handle. -/
theorem value_equals_content_fallback :
    value_equals (Value.StringO 0 "a") (Value.StringO 1 "a") = true ∧
    (0 : Nat) ≠ 1 := by
  exact ⟨rfl, by decide⟩

/-- Claim C3 as amended: under EQUAL and NOT_EQUAL, values of different
variants compare unequal without error; booleans compare structurally; nil
equals nil; numbers compare equal iff their difference is below EPSILON in
absolute value; and two strings compare equal iff they are the same handle OR
their contents are equal (value_equals has a content-comparison fallback). -/
theorem value_equals_characterization (l r : Value) :
    value_equals l r = true ↔
      ((∃ b, l = Value.Boolean b ∧ r = Value.Boolean b) ∨
       (l = Value.Nil ∧ r = Value.Nil) ∨
       (∃ a b, l = Value.Number a ∧ r = Value.Number b ∧ |a - b| < EPSILON) ∨
       (∃ lh lc rh rc, l = Value.StringO lh lc ∧ r = Value.StringO rh rc ∧
         (lh = rh ∨ lc = rc))) := by
  cases l <;> cases r <;>
    simp [value_equals, num_equals, beq_iff_eq]
  · exact eq_comm
  · constructor
    · intro h
      exact ⟨_, _, ⟨rfl, rfl⟩, _, _, ⟨rfl, rfl⟩, h⟩
    · rintro ⟨lh, lc, ⟨rfl, rfl⟩, rh, rc, ⟨rfl, rfl⟩, h⟩
      exact h

/-- Claim C1, evaluation at the failing input: the GetProperty arm executed
by the VM is a no-op (its body is commented out), so with an instance whose
field map has the requested name on top of the stack nothing is pushed,
while the claimed semantics (here modelled from the spec, which the repo's
own vm_class_fields test also demands) pushes the field value. -/
theorem get_property_unimplemented :
    get_property_arm pair_instance_stack = .ok pair_instance_stack ∧
    get_property_spec "first" pair_instance_stack =
      .ok (Value.Number 1 :: pair_instance_stack) ∧
    (Value.Number 1 :: pair_instance_stack).length ≠ pair_instance_stack.length := by
  refine ⟨rfl, rfl, by simp [pair_instance_stack]⟩

/-- Claim C2, evaluation at the failing input: close_upvalues(0) with one
open upvalue at Stack(0) and stack slot 0 holding the number 42 does remove
the upvalue from the open list, but promotes it to Heap(Value::Nil) — the
copy of the stack value is commented out in the source — whereas the claim
(and the repo's own vm_closure test) requires the heap cell to carry the
previously stack-held value 42. -/
theorem close_upvalues_stores_nil :
    (close_upvalues one_open_upvalue 0).upvalue_heap =
      [Upvalue.mk (Location.Heap Value.Nil)] ∧
    (close_upvalues one_open_upvalue 0).up_values = [] ∧
    one_open_upvalue.stack.getD 0 Value.Nil = Value.Number 42 ∧
    Value.Nil ≠ Value.Number 42 := by
  refine ⟨rfl, rfl, rfl, fun h => Value.noConfusion h⟩

/-- Claim C4, evaluation at the failing input: a CALL whose callee is the
arity-0 clock native with two supplied arguments passes check_arguments
(the native arity check is commented out in the source) and returns with
the VM state completely unchanged (call_native_function is commented out:
no host invocation, no callee-slot replacement, no stack-top adjustment,
and also no frame push), whereas the claim requires an arity error here. -/
theorem native_call_skipped :
    check_arguments clock_native 2 = .ok true ∧
    call native_call_state 2 = .ok native_call_state :=
  ⟨rfl, rfl⟩

/-- Claim C5, evaluation at the failing input: push never produces an
ErrorKind::RuntimeError, and pushing onto a full stack (stack_top =
STACK_SIZE = 1024) trips the Rust assert!, i.e. panics, whereas the claim
(and the repo's own vm_stack_overflow test) requires a reported runtime
error. -/
theorem push_overflow_panics :
    (∀ (s : List Value) (v : Value) (m : String),
      push s v ≠ PushOutcome.runtimeError m) ∧
    push (List.replicate STACK_SIZE Value.Nil) (Value.Number 1) =
      PushOutcome.panicked "assertion failed: self.stack_top < STACK_SIZE" := by
  constructor
  · intro s v m h
    unfold push at h
    split at h <;> simp_all
  · simp [push]

/-- Claim C6: constant-pool entries are addressed by a single unsigned
byte; while the pool holds fewer than 256 entries, make_constant appends
the value and returns the byte-sized index of the appended entry (equal to
the old length, which fits a byte without wrapping), and once the pool
holds 256 entries an attempt to add another is a compile error before any
out-of-range index is emitted.  The compiler-side guard is modelled from
the spec (the evie_compiler crate is not under src/); add_constant is from
chunk.rs. -/
theorem add_constant_byte_index (c : Chunk) (v : Value) :
    (c.constants.length < 256 →
      make_constant c v =
        .ok ({ c with constants := c.constants ++ [v] }, c.constants.length)) ∧
    (256 ≤ c.constants.length →
      make_constant c v = .error "Too many constants in one chunk") := by
  constructor
  · intro h
    have h2 : ¬ 256 ≤ c.constants.length := by omega
    simp [make_constant, h2, add_constant]
    omega
  · intro h
    simp [make_constant, h]

set_option maxRecDepth 4000 in
/-- Witness for the constant-pool claim: on the empty chunk make_constant
appends and returns index 0; on a chunk with 256 constants it errors. -/
theorem add_constant_byte_index_witness :
    make_constant chunk0 Value.Nil =
      .ok ({ chunk0 with constants := chunk0.constants ++ [Value.Nil] },
        chunk0.constants.length) ∧
    make_constant chunk256 Value.Nil = .error "Too many constants in one chunk" :=
  ⟨(add_constant_byte_index chunk0 Value.Nil).1 (by decide),
   (add_constant_byte_index chunk256 Value.Nil).2 (by decide)⟩

/-- Claim C7, counterexample: calling the arity-0 closure named c with two
arguments raises the runtime error message "Expected 0 arguments but got
2", which does not name the called function, refuting the claimed message
"Expected N arguments but got M for <fn name>" (the repo's own
vm_call_error_stack_trace test also expects the short message). -/
theorem call_arity_message_without_name :
    call closure_call_state 2 = .error (expected_arguments_message 0 2) ∧
    expected_arguments_message 0 2 = "Expected 0 arguments but got 2" ∧
    expected_arguments_message 0 2 ≠ "Expected 0 arguments but got 2 for <fn c>" := by
  refine ⟨rfl, by decide, by decide⟩

/-- Claim C7 as amended: a CALL of a closure with arity N and M supplied
arguments errors with message "Expected N arguments but got M" (the
function's name appears only in the stack-trace lines, not in the message)
when M differs from N; when they agree a new frame is pushed with
frame_base = top - 1 - argc and ip = 0 (CallFrame::new), so execution
resumes at instruction 0 of the callee's chunk. -/
theorem call_closure_arity_and_frame (s : CallState) (c : Closure)
    (u : UserDefinedFunction) (arg_count : Nat)
    (hfn : c.function = Function.UserDefined u)
    (hpeek : s.stack[arg_count]? = some (Value.ClosureO c)) :
    (u.arity ≠ arg_count →
      call s arg_count = .error (expected_arguments_message u.arity arg_count)) ∧
    (u.arity = arg_count →
      call s arg_count = .ok { s with call_frames :=
        s.call_frames ++ [CallFrame.mk (s.stack.length - 1 - arg_count) 0] }) := by
  constructor
  · intro hne
    simp [call, hpeek, call_function, hfn, check_arguments, hne]
  · intro he
    simp [call, hpeek, call_function, hfn, check_arguments, he]

/-- Witness for the amended CALL claim: calling the arity-1 closure f with
one argument pushes the frame with frame_base 0 and ip 0. -/
theorem call_closure_arity_and_frame_witness :
    call closure_f_state 1 = .ok { closure_f_state with call_frames :=
      closure_f_state.call_frames ++
        [CallFrame.mk (closure_f_state.stack.length - 1 - 1) 0] } :=
  (call_closure_arity_and_frame closure_f_state closure_f
    (UserDefinedFunction.mk (some "f") 0 1 0) 1 rfl rfl).2 rfl

@[simp]
theorem or_lookup_some {V : Type} (v : V) (b : Option V) :
    or_lookup (some v) b = some v := rfl

@[simp]
theorem or_lookup_none {V : Type} (b : Option V) :
    or_lookup none b = b := rfl

theorem cache_get_insert {V : Type} (c : List (Nat × V)) (k k2 : Nat) (v : V) :
    cache_get (cache_insert c k v) k2 =
      if k = k2 then some v else cache_get c k2 := by
  induction c with
  | nil => simp [cache_insert, cache_get]
  | cons p rest ih =>
    obtain ⟨k0, v0⟩ := p
    by_cases h0 : k0 = k
    · subst h0
      by_cases h2 : k0 = k2 <;> simp [cache_insert, cache_get, h2]
    · by_cases h2 : k0 = k2
      · subst h2
        have hne : ¬ k = k0 := fun h => h0 h.symm
        simp [cache_insert, cache_get, h0, hne]
      · simp [cache_insert, cache_get, h0, h2, ih]

theorem cache_get_eq_none {V : Type} (c : List (Nat × V)) (k : Nat) :
    cache_get c k = none ↔ k ∉ cache_keys c := by
  induction c with
  | nil => simp [cache_get, cache_keys]
  | cons p rest ih =>
    obtain ⟨k0, v0⟩ := p
    by_cases h0 : k0 = k
    · simp [cache_get, cache_keys, h0]
    · have hne : ¬ k = k0 := fun h => h0 h.symm
      simp [cache_get, cache_keys, h0, hne, ih]

theorem cache_keys_insert {V : Type} (c : List (Nat × V)) (k : Nat) (v : V) :
    cache_keys (cache_insert c k v) =
      if k ∈ cache_keys c then cache_keys c else cache_keys c ++ [k] := by
  induction c with
  | nil => simp [cache_insert, cache_keys]
  | cons p rest ih =>
    obtain ⟨k0, v0⟩ := p
    by_cases h0 : k0 = k
    · subst h0
      simp [cache_insert, cache_keys]
    · have hne : ¬ k = k0 := fun h => h0 h.symm
      simp only [cache_keys, List.map_cons] at ih ⊢
      simp only [cache_insert, h0, if_false, List.map_cons, ih]
      by_cases hm : k ∈ List.map Prod.fst rest <;>
        simp [List.mem_cons, hne, hm]

theorem cache_nodup_insert {V : Type} (c : List (Nat × V)) (k : Nat) (v : V)
    (h : (cache_keys c).Nodup) : (cache_keys (cache_insert c k v)).Nodup := by
  rw [cache_keys_insert]
  split
  · exact h
  · rename_i hk
    simp [List.nodup_append, h, hk]

theorem cache_get_append {V : Type} (a b : List (Nat × V)) (k : Nat) :
    cache_get (a ++ b) k = or_lookup (cache_get a k) (cache_get b k) := by
  induction a with
  | nil => simp [cache_get]
  | cons p rest ih =>
    obtain ⟨k0, v0⟩ := p
    by_cases h0 : k0 = k <;> simp [cache_get, h0, ih]

theorem cache_get_reverse {V : Type} (c : List (Nat × V)) (k : Nat)
    (h : (cache_keys c).Nodup) : cache_get c.reverse k = cache_get c k := by
  induction c with
  | nil => rfl
  | cons p rest ih =>
    obtain ⟨k0, v0⟩ := p
    have hrest : (cache_keys rest).Nodup := by
      simp [cache_keys] at h
      exact h.2
    rw [List.reverse_cons, cache_get_append, ih hrest]
    by_cases h0 : k0 = k
    · subst h0
      have hnotin : k0 ∉ cache_keys rest := by
        simp [cache_keys] at h ⊢
        intro v2 hv2
        exact h.1 v2 hv2
      have : cache_get rest k0 = none := (cache_get_eq_none rest k0).mpr hnotin
      simp [this, cache_get]
    · cases hres : cache_get rest k <;> simp [cache_get, h0, hres]

theorem map_insert_all_get {V : Type} (l : List (Nat × V)) (m : Nat → Option V)
    (k : Nat) :
    map_insert_all m l k = or_lookup (cache_get l.reverse k) (m k) := by
  induction l generalizing m with
  | nil => simp [map_insert_all, cache_get]
  | cons p rest ih =>
    obtain ⟨k0, v0⟩ := p
    rw [List.reverse_cons, cache_get_append]
    simp only [map_insert_all]
    rw [ih]
    cases cache_get rest.reverse k with
    | some v => rfl
    | none =>
      by_cases h0 : k0 = k
      · subst h0
        simp [map_insert, cache_get]
      · have hne : ¬ k = k0 := fun h => h0 h.symm
        simp [map_insert, cache_get, h0, hne]

theorem cache_keys_append {V : Type} (a b : List (Nat × V)) :
    cache_keys (a ++ b) = cache_keys a ++ cache_keys b := by
  simp [cache_keys]

theorem combined_drain {V : Type} (c : List (Nat × V)) (m : Nat → Option V)
    (n k : Nat) (h : (cache_keys c).Nodup) :
    or_lookup (cache_get (c.drop n) k) (map_insert_all m (c.take n) k) =
      or_lookup (cache_get c k) (m k) := by
  have hsplit : c = c.take n ++ c.drop n := (List.take_append_drop n c).symm
  have hkeys : (cache_keys (c.take n) ++ cache_keys (c.drop n)).Nodup := by
    rw [← cache_keys_append, ← hsplit]
    exact h
  have htake : (cache_keys (c.take n)).Nodup := (List.nodup_append.mp hkeys).1
  have hdisj : (cache_keys (c.take n)).Disjoint (cache_keys (c.drop n)) :=
    (List.nodup_append.mp hkeys).2.2
  rw [map_insert_all_get, cache_get_reverse _ _ htake]
  conv_rhs => rw [hsplit, cache_get_append]
  cases htres : cache_get (c.take n) k with
  | some v =>
    have hmem : k ∈ cache_keys (c.take n) := by
      by_contra hmem
      rw [(cache_get_eq_none _ _).mpr hmem] at htres
      exact Option.noConfusion htres
    have : cache_get (c.drop n) k = none :=
      (cache_get_eq_none _ _).mpr (fun hk => hdisj hmem hk)
    simp [this]
  | none => cases cache_get (c.drop n) k <;> simp

theorem objects_get_fst {V : Type} (s : Objects V) (k : Nat) :
    (s.get k).1 = combined s k := by
  unfold Objects.get combined
  cases cache_get s.cached_values k with
  | some v => rfl
  | none => cases s.objects k <;> rfl

theorem combined_insert {V : Type} (s : Objects V) (k2 : Nat) (v : V)
    (h : CacheNodup s) (k : Nat) :
    combined (s.insert k2 v) k = if k2 = k then some v else combined s k := by
  have hbase :
      or_lookup (cache_get (cache_insert s.cached_values k2 v) k) (s.objects k) =
        if k2 = k then some v else combined s k := by
    rw [cache_get_insert]
    by_cases hk : k2 = k
    · rw [if_pos hk, if_pos hk]
      rfl
    · rw [if_neg hk, if_neg hk]
      rfl
  by_cases hthresh : ITEM_COUNT ≤ (cache_insert s.cached_values k2 v).length
  · have hins : s.insert k2 v =
        { objects := map_insert_all s.objects
            ((cache_insert s.cached_values k2 v).take ITEM_COUNT),
          cached_values := (cache_insert s.cached_values k2 v).drop ITEM_COUNT } := by
      unfold Objects.insert
      rw [if_pos hthresh]
    rw [hins]
    show or_lookup (cache_get ((cache_insert s.cached_values k2 v).drop ITEM_COUNT) k)
        (map_insert_all s.objects ((cache_insert s.cached_values k2 v).take ITEM_COUNT) k) =
      if k2 = k then some v else combined s k
    rw [combined_drain _ _ _ _ (cache_nodup_insert _ k2 v h)]
    exact hbase
  · have hins : s.insert k2 v =
        { objects := s.objects,
          cached_values := cache_insert s.cached_values k2 v } := by
      unfold Objects.insert
      rw [if_neg hthresh]
    rw [hins]
    exact hbase

theorem cache_nodup_insert_op {V : Type} (s : Objects V) (k2 : Nat) (v : V)
    (h : CacheNodup s) : CacheNodup (s.insert k2 v) := by
  unfold Objects.insert
  by_cases hthresh : ITEM_COUNT ≤ (cache_insert s.cached_values k2 v).length
  · rw [if_pos hthresh]
    have hnd : (cache_keys (cache_insert s.cached_values k2 v)).Nodup :=
      cache_nodup_insert _ k2 v h
    have hsub : (cache_keys ((cache_insert s.cached_values k2 v).drop ITEM_COUNT)).Sublist
        (cache_keys (cache_insert s.cached_values k2 v)) := by
      unfold cache_keys
      exact (List.drop_sublist _ _).map _
    exact hnd.sublist hsub
  · rw [if_neg hthresh]
    exact cache_nodup_insert _ k2 v h

theorem combined_get_snd {V : Type} (s : Objects V) (k2 k : Nat) :
    combined ((s.get k2).2) k = combined s k := by
  unfold Objects.get
  cases hc : cache_get s.cached_values k2 with
  | some v => rfl
  | none =>
    cases ho : s.objects k2 with
    | none => rfl
    | some v =>
      show or_lookup (cache_get (cache_insert s.cached_values k2 v) k) (s.objects k) =
        or_lookup (cache_get s.cached_values k) (s.objects k)
      rw [cache_get_insert]
      by_cases hk : k2 = k
      · subst hk
        rw [if_pos rfl, hc, ho]
        rfl
      · rw [if_neg hk]

theorem cache_nodup_get_op {V : Type} (s : Objects V) (k2 : Nat)
    (h : CacheNodup s) : CacheNodup ((s.get k2).2) := by
  unfold Objects.get
  cases cache_get s.cached_values k2 with
  | some v => exact h
  | none =>
    cases s.objects k2 with
    | none => exact h
    | some v => exact cache_nodup_insert _ k2 v h

theorem run_ops_combined {V : Type} (ops : List (GlobalsOp V)) :
    ∀ s : Objects V, CacheNodup s →
      CacheNodup (run_ops s ops) ∧
      (∀ k, combined (run_ops s ops) k =
        ops.foldl (fun acc op =>
          match op with
          | .insertOp k2 v => if k2 = k then some v else acc
          | .getOp _ => acc) (combined s k)) := by
  induction ops with
  | nil => exact fun s h => ⟨h, fun k => rfl⟩
  | cons op rest ih =>
    intro s h
    have hstep : CacheNodup (apply_op s op) := by
      cases op with
      | insertOp k2 v => exact cache_nodup_insert_op s k2 v h
      | getOp k2 => exact cache_nodup_get_op s k2 h
    obtain ⟨hn, hc⟩ := ih (apply_op s op) hstep
    refine ⟨hn, fun k => ?_⟩
    have h1 : combined (apply_op s op) k =
        (match op with
         | GlobalsOp.insertOp k2 v => if k2 = k then some v else combined s k
         | GlobalsOp.getOp _ => combined s k) := by
      cases op with
      | insertOp k2 v => exact combined_insert s k2 v h k
      | getOp k2 => exact combined_get_snd s k2 k
    show combined (run_ops (apply_op s op) rest) k = _
    rw [hc k, h1]
    cases op <;> rfl

theorem combined_empty {V : Type} (k : Nat) :
    combined (Objects.empty : Objects V) k = none := rfl

theorem cache_nodup_empty {V : Type} : CacheNodup (Objects.empty : Objects V) :=
  List.nodup_nil

/-- Claim C10: the two-tier globals store is insert/get coherent.  For every
sequence of inserts and gets run from the empty store, get returns exactly
the value of the last insert for the key (regardless of how many other keys
were inserted, including across the drain of the cache tier into the hash
map at ITEM_COUNT = 1024 entries); in particular a get immediately after an
insert of the key returns the inserted value, and get returns none iff the
key was never inserted. -/
theorem globals_insert_get_coherent (V : Type) :
    (∀ (ops : List (GlobalsOp V)) (k : Nat),
      ((run_ops Objects.empty ops).get k).1 = last_insert ops k) ∧
    (∀ (ops : List (GlobalsOp V)) (k : Nat) (v : V),
      ((run_ops Objects.empty (ops ++ [GlobalsOp.insertOp k v])).get k).1 = some v) ∧
    (∀ (ops : List (GlobalsOp V)) (k : Nat),
      (((run_ops Objects.empty ops).get k).1 = none ↔ last_insert ops k = none)) := by
  have hmain : ∀ (ops : List (GlobalsOp V)) (k : Nat),
      ((run_ops Objects.empty ops).get k).1 = last_insert ops k := by
    intro ops k
    rw [objects_get_fst]
    have := (run_ops_combined ops Objects.empty cache_nodup_empty).2 k
    rw [this, combined_empty]
    rfl
  refine ⟨hmain, fun ops k v => ?_, fun ops k => by rw [hmain]⟩
  rw [hmain]
  unfold last_insert
  rw [List.foldl_append]
  simp

end Evie
